import Mathlib

/-!
Verification of the streaming-conversion core of `kws_streaming`:
`src/layers/stream.py` (ring-buffer streaming wrapper `Stream`) and
`src/layers/delay.py` (fixed-latency `Delay` operator).

The embedding works on the time axis: a tensor `[batch, time, ...features]`
is represented by the list of its time-steps, one rational per step (the
trailing feature dimensions are fixed and elementwise independent for all
the temporal properties considered here, so a single scalar per step is
fully general; shape-level facts use `List ℕ` shapes).  Cells wrapped by
`Stream` are represented by their configuration (`Cell`) plus, where the
numeric behaviour matters, the function they compute on a window of
time-steps.
-/

namespace KwsStreaming

/-- Execution modes (`kws_streaming.layers.modes.Modes`).
Modelled from the spec: the `modes` module is not under `src/`; the spec
(section 3) lists exactly these four variants. -/
inductive Modes where
  | TRAINING
  | NON_STREAM_INFERENCE
  | STREAM_INTERNAL_STATE_INFERENCE
  | STREAM_EXTERNAL_STATE_INFERENCE
deriving DecidableEq, Repr

/-- The cell wrapped by `Stream`, as inspected by `Stream.__init__`
(src/layers/stream.py lines 62-91).  The isinstance checks there
distinguish `Conv2D`, `DepthwiseConv2D`, `AveragePooling2D` and `Flatten`;
every other cell object (a Lambda, `tf.identity`, a custom layer, ...)
falls into the final `else` branch, represented here by `other` with a
descriptive string.  The convolution kinds carry the config entries the
wrapper reads (`kernel_size[0]`, `dilation_rate[0]`, `strides[0]`), the
pooling kind carries (`pool_size[0]`, `strides[0]`). -/
inductive Cell where
  | conv2D (kernelSize dilationRate strideT : ℕ)
  | depthwiseConv2D (kernelSize dilationRate strideT : ℕ)
  | averagePooling2D (poolSize strideT : ℕ)
  | flatten
  | other (descr : String)
deriving DecidableEq, Repr

/-- True for the two convolution kinds, mirroring
`isinstance(cell, Conv2D) or isinstance(cell, DepthwiseConv2D)`. -/
def Cell.isConvKind : Cell → Bool
  | .conv2D _ _ _ => true
  | .depthwiseConv2D _ _ _ => true
  | _ => false

/-- True for `AveragePooling2D`. -/
def Cell.isPoolKind : Cell → Bool
  | .averagePooling2D _ _ => true
  | _ => false

/-- `Stream.__init__` (src/layers/stream.py lines 47-94): validates the
cell/mode combination and computes `self.effective_ksize_tdim`
(`none` = the python attribute stays `None`, which happens for a
`Flatten` cell with no `state_shape`).  `stateShape` is the optional
`state_shape` constructor argument; python truthiness makes an empty
list behave like `None`. -/
def streamInit (cell : Cell) (mode : Modes) (stateShape : Option (List ℕ)) :
    Except String (Option ℕ) :=
  match cell with
  | .conv2D k d s =>
      if (mode ≠ .TRAINING ∧ mode ≠ .NON_STREAM_INFERENCE) ∧ s > 1 then
        .error "Stride in time dim greater than 1 in streaming mode not supported"
      else
        .ok (some (d * (k - 1) + 1))
  | .depthwiseConv2D k d s =>
      if (mode ≠ .TRAINING ∧ mode ≠ .NON_STREAM_INFERENCE) ∧ s > 1 then
        .error "Stride in time dim greater than 1 in streaming mode not supported"
      else
        .ok (some (d * (k - 1) + 1))
  | .averagePooling2D p s =>
      if (mode ≠ .TRAINING ∧ mode ≠ .NON_STREAM_INFERENCE) ∧ s ≠ p then
        .error "Stride in time must = pool size in time"
      else
        .ok (some p)
  | .flatten =>
      match stateShape with
      | some ss => if ss = [] then .ok none else .ok (some (ss.getD 1 0))
      | none => .ok none
  | .other _ => .error "Cell is not supported"

/-- Output length along time of a valid (unpadded) convolution or pooling
with effective kernel size `e` and temporal stride `s`, on `len` input
steps (TensorFlow `valid` padding semantics). -/
def convOutLen (len e s : ℕ) : ℕ :=
  if len < e then 0 else (len - e) / s + 1

/-- The `k` input steps a dilated convolution tap reads starting at time
index `i`: positions `i, i + d, ..., i + (k-1)d` (zero for out-of-range). -/
def convTaps (k d : ℕ) (xs : List ℚ) (i : ℕ) : List ℚ :=
  (List.range k).map fun j => xs.getD (i + j * d) 0

/-- Time-axis semantics of a `Conv2D`/`DepthwiseConv2D` cell with
`padding=valid`, kernel size `k`, dilation `d` and temporal stride `s`:
output `i` applies the per-window combination `g` (the kernel arithmetic,
abstracted) to the dilated taps starting at input position `i * s`. -/
def conv2DValid (k d s : ℕ) (g : List ℚ → ℚ) (xs : List ℚ) : List ℚ :=
  (List.range (convOutLen xs.length (d * (k - 1) + 1) s)).map fun i =>
    g (convTaps k d xs (i * s))

/-- Time-axis semantics of an `AveragePooling2D` cell with pool size `p`
and temporal stride `s` (`valid` padding). -/
def avgPool2DValid (p s : ℕ) (xs : List ℚ) : List ℚ :=
  (List.range (convOutLen xs.length p s)).map fun i =>
    ((xs.drop (i * s)).take p).sum / (p : ℚ)

/-- `Stream._streaming_internal_state` (src/layers/stream.py lines
178-192): requires a one-step input, shifts the buffer
(`states[:, 1:e, :]` then concatenate the new step) and applies the cell;
returns (assigned states, cell output). -/
def streamingInternalState {γ : Type} (e : ℕ) (cellFn : List ℚ → γ)
    (states inputs : List ℚ) : Except String (List ℚ × γ) :=
  if inputs.length ≠ 1 then
    .error "inputs.shape 1 must be 1"
  else
    let memory := (states.take e).drop 1 ++ inputs
    .ok (memory, cellFn memory)

/-- `Stream._streaming_external_state` (src/layers/stream.py lines
194-206): same shift-and-apply, with the buffer passed in and the updated
buffer returned as (output, new state). -/
def streamingExternalState {γ : Type} (e : ℕ) (cellFn : List ℚ → γ)
    (inputs state : List ℚ) : Except String (γ × List ℚ) :=
  if inputs.length ≠ 1 then
    .error "inputs.shape 1 must be 1"
  else
    let memory := (state.take e).drop 1 ++ inputs
    .ok (cellFn memory, memory)

/-- `Stream._non_streaming` (src/layers/stream.py lines 208-215): when
`pad_time_dim` is truthy AND the cell is one of the two convolution kinds,
left-pads the time axis with `effective_ksize_tdim - 1` zeros; in every
other case the cell receives the input unpadded. -/
def nonStreaming {γ : Type} (cell : Cell) (e : ℕ) (cellFn : List ℚ → γ)
    (padTimeDim : Bool) (inputs : List ℚ) : γ :=
  if padTimeDim && cell.isConvKind then
    cellFn (List.replicate (e - 1) (0 : ℚ) ++ inputs)
  else
    cellFn inputs

/-- Driving loop for internal-state streaming: feed the steps of a
sequence one at a time through `streamingInternalState`, collecting the
outputs and the final persisted buffer. -/
def streamRunInt {γ : Type} (e : ℕ) (cellFn : List ℚ → γ) :
    List ℚ → List ℚ → List γ × List ℚ
  | buf, [] => ([], buf)
  | buf, x :: xs =>
      match streamingInternalState e cellFn buf [x] with
      | .error _ => ([], buf)
      | .ok (newBuf, out) =>
          let r := streamRunInt e cellFn newBuf xs
          (out :: r.1, r.2)

/-- Driving loop for external-state streaming: the caller threads the
returned state into the next call, as the spec's state accessors are used
by the model-conversion collaborator. -/
def streamRunExt {γ : Type} (e : ℕ) (cellFn : List ℚ → γ) :
    List ℚ → List ℚ → List γ × List ℚ
  | state, [] => ([], state)
  | state, x :: xs =>
      match streamingExternalState e cellFn [x] state with
      | .error _ => ([], state)
      | .ok (out, newState) =>
          let r := streamRunExt e cellFn newState xs
          (out :: r.1, r.2)

/-- Python negative-index slice `m[-d:]` on the time axis: the last `d`
steps for `d > 0` (the whole list when `d` exceeds the length), and the
whole list for `d = 0` (python `m[0:]`). -/
def pySliceLast {α : Type} (d : ℕ) (m : List α) : List α :=
  if d = 0 then m else m.drop (m.length - d)

/-- `Delay._streaming_internal_state` (src/layers/delay.py lines 98-105):
concatenate the buffer with the new input steps, emit the oldest
`inputs.length` steps, keep the newest `delay` steps.  Returns
(emitted outputs, buffer assigned to `self.states`). -/
def delayStreamingInternal (delay : ℕ) (states inputs : List ℚ) :
    List ℚ × List ℚ :=
  let memory := states ++ inputs
  let outputs := memory.take inputs.length
  let newMemory := pySliceLast delay memory
  (outputs, newMemory)

/-- `Delay._streaming_external_state` (src/layers/delay.py lines 107-111):
the same computation with the buffer passed and returned explicitly as
(outputs, new state). -/
def delayStreamingExternal (delay : ℕ) (states inputs : List ℚ) :
    List ℚ × List ℚ :=
  let memory := states ++ inputs
  let outputs := memory.take inputs.length
  let newMemory := pySliceLast delay memory
  (outputs, newMemory)

/-- Result of `Delay.build` (src/layers/delay.py lines 44-66):
`stateShape` is the `self.state_shape` attribute (`none` = never
assigned), `statesAllocated` is the shape of the zero-initialized
`states` weight when one is created, `inputStateShape` the shape of the
`tf.keras.layers.Input` state placeholder when one is created. -/
structure DelayBuilt where
  stateShape : Option (List ℕ)
  statesAllocated : Option (List ℕ)
  inputStateShape : Option (List ℕ)
deriving DecidableEq, Repr

/-- `Delay.build` (src/layers/delay.py lines 44-66).  `Delay.__init__`
(lines 34-42) assigns only `mode`, `delay` and `inference_batch_size`, so
when the external-state branch at line 63 reads `self.state_shape[1:]`
that attribute has never been assigned (only the internal-state branch at
line 51 creates it): python raises `AttributeError` there, modelled as
the error case. -/
def delayBuild (mode : Modes) (delay batch : ℕ) (inputShape : List ℕ) :
    Except String DelayBuilt :=
  if delay > 0 then
    match mode with
    | .STREAM_INTERNAL_STATE_INFERENCE =>
        let ss := [batch, delay] ++ inputShape.drop 2
        .ok { stateShape := some ss, statesAllocated := some ss,
              inputStateShape := none }
    | .STREAM_EXTERNAL_STATE_INFERENCE =>
        .error "AttributeError: Delay object has no attribute state_shape"
    | _ =>
        .ok { stateShape := none, statesAllocated := none,
              inputStateShape := none }
  else
    .ok { stateShape := none, statesAllocated := none,
          inputStateShape := none }

/-- `Delay.call` (src/layers/delay.py lines 68-87): the `delay == 0`
identity short-circuit comes before the mode dispatch.  Returns
(output steps, buffer after the call) where the second component is the
assigned internal buffer, the returned external state, or the unchanged
buffer in the non-streaming modes. -/
def delayCall (mode : Modes) (delay : ℕ) (states inputs : List ℚ) :
    List ℚ × List ℚ :=
  if delay = 0 then (inputs, states)
  else
    match mode with
    | .STREAM_INTERNAL_STATE_INFERENCE =>
        delayStreamingInternal delay states inputs
    | .STREAM_EXTERNAL_STATE_INFERENCE =>
        delayStreamingExternal delay states inputs
    | _ => (inputs, states)

/-- Driving loop for a streaming `Delay`: feed a list of input chunks
through `delayStreamingInternal`, collecting the emitted outputs and the
final buffer. -/
def delayRun (delay : ℕ) : List ℚ → List (List ℚ) → List (List ℚ) × List ℚ
  | states, [] => ([], states)
  | states, chunk :: rest =>
      let c := delayStreamingInternal delay states chunk
      let r := delayRun delay c.2 rest
      (c.1 :: r.1, r.2)

/-- Result of `Stream.build` (src/layers/stream.py lines 96-133):
`outputState` models `self.output_state`, which is assigned (to `None`)
only in the external-state branch; in the other modes the field is
meaningless and kept `none`. -/
structure StreamBuilt where
  stateShape : Option (List ℕ)
  statesAllocated : Option (List ℕ)
  inputStateShape : Option (List ℕ)
  outputState : Option (List ℚ)
deriving DecidableEq, Repr

/-- `Stream.build` (src/layers/stream.py lines 96-133): derives
`state_shape` from the input shape for the window-consuming kinds (or,
for `Flatten` without an explicit shape, from the full training-time
input shape, only available in the non-streaming modes), then allocates
the zero weight (internal mode) or the input-state placeholder and a
`None` output state (external mode).  `effKsize` is the
`effective_ksize_tdim` computed by `streamInit`, `stateShape0` the
optional constructor-supplied `state_shape`. -/
def streamBuild (cell : Cell) (mode : Modes) (effKsize : Option ℕ)
    (batch : ℕ) (stateShape0 : Option (List ℕ)) (inputShape : List ℕ) :
    StreamBuilt :=
  let ss1 : Option (List ℕ) :=
    if cell.isConvKind || cell.isPoolKind then
      some ([batch, effKsize.getD 0] ++ inputShape.drop 2)
    else if cell = .flatten ∧ (stateShape0 = none ∨ stateShape0 = some []) then
      if mode = .TRAINING ∨ mode = .NON_STREAM_INFERENCE then
        some (batch :: inputShape.drop 1)
      else stateShape0
    else stateShape0
  match mode with
  | .STREAM_INTERNAL_STATE_INFERENCE =>
      { stateShape := ss1, statesAllocated := ss1,
        inputStateShape := none, outputState := none }
  | .STREAM_EXTERNAL_STATE_INFERENCE =>
      { stateShape := ss1, statesAllocated := none,
        inputStateShape := some (batch :: (ss1.getD []).drop 1),
        outputState := none }
  | _ =>
      { stateShape := ss1, statesAllocated := none,
        inputStateShape := none, outputState := none }

/-- `Stream.get_output_state` (src/layers/stream.py lines 171-176):
returns `self.output_state` in external-state mode, raises otherwise. -/
def streamGetOutputState (mode : Modes) (outputState : Option (List ℚ)) :
    Except String (Option (List ℚ)) :=
  if mode = .STREAM_EXTERNAL_STATE_INFERENCE then .ok outputState
  else .error "wrong mode"

/-- `Stream.call` in external-state mode (src/layers/stream.py lines
139-144): runs `_streaming_external_state` and stores the returned state
into `self.output_state`.  Returns (cell output, new `output_state`). -/
def streamCallExternalMode {γ : Type} (e : ℕ) (cellFn : List ℚ → γ)
    (inputs inputState : List ℚ) :
    Except String (γ × Option (List ℚ)) :=
  match streamingExternalState e cellFn inputs inputState with
  | .error msg => .error msg
  | .ok (out, mem) => .ok (out, some mem)

/-! Helper lemmas about list indexing and the streaming loops. -/

lemma getD_take_of_lt {α : Type} (l : List α) (e i : ℕ) (h : i < e) (d : α) :
    (l.take e).getD i d = l.getD i d := by
  simp [List.getD_eq_getElem?_getD, List.getElem?_take, h]

lemma getD_drop_add {α : Type} (l : List α) (n i : ℕ) (d : α) :
    (l.drop n).getD i d = l.getD (n + i) d := by
  simp [List.getD_eq_getElem?_getD, List.getElem?_drop]

lemma getD_zeros_append (m : ℕ) (xs : List ℚ) (i : ℕ) :
    (List.replicate m (0 : ℚ) ++ xs).getD i 0
      = if i < m then 0 else xs.getD (i - m) 0 := by
  by_cases h : i < m
  · simp [List.getD_eq_getElem?_getD, List.getElem?_append,
      List.getElem?_replicate, h]
  · simp [List.getD_eq_getElem?_getD, List.getElem?_append,
      List.length_replicate, h]

lemma getD_map_range {γ : Type} (f : ℕ → γ) (n t : ℕ) (ht : t < n)
    (dflt : γ) : ((List.range n).map f).getD t dflt = f t := by
  simp [List.getD_eq_getElem?_getD, List.getElem?_map, List.getElem?_range ht]

lemma streamRunInt_cons {γ : Type} (e : ℕ) (cellFn : List ℚ → γ)
    (buf : List ℚ) (x : ℚ) (xs : List ℚ) :
    streamRunInt e cellFn buf (x :: xs)
      = (cellFn ((buf.take e).drop 1 ++ [x])
           :: (streamRunInt e cellFn ((buf.take e).drop 1 ++ [x]) xs).1,
         (streamRunInt e cellFn ((buf.take e).drop 1 ++ [x]) xs).2) := rfl

lemma streamRunExt_cons {γ : Type} (e : ℕ) (cellFn : List ℚ → γ)
    (buf : List ℚ) (x : ℚ) (xs : List ℚ) :
    streamRunExt e cellFn buf (x :: xs)
      = (cellFn ((buf.take e).drop 1 ++ [x])
           :: (streamRunExt e cellFn ((buf.take e).drop 1 ++ [x]) xs).1,
         (streamRunExt e cellFn ((buf.take e).drop 1 ++ [x]) xs).2) := rfl

lemma streamRunExt_eq_int {γ : Type} (e : ℕ) (cellFn : List ℚ → γ) :
    ∀ (xs buf : List ℚ),
      streamRunExt e cellFn buf xs = streamRunInt e cellFn buf xs := by
  intro xs
  induction xs with
  | nil => intro buf; rfl
  | cons x xs ih =>
      intro buf
      rw [streamRunExt_cons, streamRunInt_cons, ih]

/-- Buffer shape of one internal-state streaming step, under the size
invariant: drop the oldest step, append the new one. -/
lemma stream_memory_eq (e : ℕ)
    (b : ℚ) (bs : List ℚ) (h : (b :: bs).length = e) (x : ℚ) :
    ((b :: bs).take e).drop 1 ++ [x] = bs ++ [x] := by
  have htake : (b :: bs).take e = b :: bs :=
    List.take_of_length_le (le_of_eq h)
  rw [htake]
  rfl

/-- Closed form for the outputs of the internal-state streaming loop from
a buffer of size `e`: the cell sees, at step `t`, the window of the last
`e` entries of `buffer ++ first (t+1) inputs`. -/
lemma streamRunInt_outputs_closed {γ : Type} (e : ℕ) (he : 1 ≤ e)
    (cellFn : List ℚ → γ) :
    ∀ (xs buf : List ℚ), buf.length = e →
      (streamRunInt e cellFn buf xs).1
        = (List.range xs.length).map fun t =>
            cellFn (((buf ++ xs).drop (t + 1)).take e) := by
  intro xs
  induction xs with
  | nil => intro buf _; simp [streamRunInt]
  | cons x xs ih =>
      intro buf h
      obtain ⟨b, bs, rfl⟩ : ∃ b bs, buf = b :: bs := by
        cases buf with
        | nil => simp at h; omega
        | cons b bs => exact ⟨b, bs, rfl⟩
      have hbs : bs.length = e - 1 := by
        simp only [List.length_cons] at h; omega
      have hmem : (bs ++ [x]).length = e := by
        simp [hbs]; omega
      rw [streamRunInt_cons, stream_memory_eq e b bs h x]
      simp only
      rw [ih (bs ++ [x]) hmem]
      rw [List.length_cons, List.range_succ_eq_map, List.map_cons,
        List.map_map]
      have hwin0 : ((b :: bs ++ x :: xs).drop 1).take e = bs ++ [x] := by
        rw [List.cons_append, List.drop_one, List.tail_cons,
          List.take_append_eq_append_take,
          List.take_of_length_le (by omega), hbs]
        have h1 : e - (e - 1) = 1 := by omega
        rw [h1]
        simp
      have hshift : (bs ++ [x]) ++ xs = (b :: bs ++ x :: xs).drop 1 := by
        simp
      congr 1
      · simp only [Nat.zero_add]
        rw [hwin0]
      · apply List.map_congr_left
        intro t _
        simp only [Function.comp]
        rw [hshift, List.drop_drop]
        have : 1 + (t + 1) = Nat.succ t + 1 := by omega
        rw [this]

/-- The internal buffer keeps exactly `e` steps across any number of
one-step streaming calls. -/
lemma streamRunInt_state_length {γ : Type} (e : ℕ) (he : 1 ≤ e)
    (cellFn : List ℚ → γ) :
    ∀ (xs buf : List ℚ), buf.length = e →
      (streamRunInt e cellFn buf xs).2.length = e := by
  intro xs
  induction xs with
  | nil => intro buf h; simpa [streamRunInt] using h
  | cons x xs ih =>
      intro buf h
      obtain ⟨b, bs, rfl⟩ : ∃ b bs, buf = b :: bs := by
        cases buf with
        | nil => simp at h; omega
        | cons b bs => exact ⟨b, bs, rfl⟩
      have hbs : bs.length = e - 1 := by
        simp only [List.length_cons] at h; omega
      rw [streamRunInt_cons, stream_memory_eq e b bs h x]
      exact ih (bs ++ [x]) (by simp [hbs]; omega)

lemma delayRun_cons (dl : ℕ) (states chunk : List ℚ)
    (rest : List (List ℚ)) :
    delayRun dl states (chunk :: rest)
      = ((delayStreamingInternal dl states chunk).1
           :: (delayRun dl (delayStreamingInternal dl states chunk).2 rest).1,
         (delayRun dl (delayStreamingInternal dl states chunk).2 rest).2) :=
  rfl

/-- One delay step from a full buffer of `dl ≥ 1` steps: emit the oldest
step, keep the rest plus the new step. -/
lemma delay_step_eq (dl : ℕ) (hd : 1 ≤ dl) (b : ℚ) (bs : List ℚ)
    (h : (b :: bs).length = dl) (x : ℚ) :
    delayStreamingInternal dl (b :: bs) [x] = ([b], bs ++ [x]) := by
  have hb : bs.length + 1 = dl := by simpa using h
  have hdl : ¬ dl = 0 := by omega
  have hidx : (b :: (bs ++ [x])).length - dl = 1 := by
    simp only [List.length_cons, List.length_append, List.length_singleton,
      List.length_nil]
    omega
  simp only [delayStreamingInternal, pySliceLast, if_neg hdl,
    List.cons_append, List.length_singleton]
  rw [hidx]
  simp

/-- Closed form for the outputs of the streaming delay loop fed one step
at a time from a buffer of `dl` steps: output `t` is entry `t` of
`buffer ++ inputs`. -/
lemma delayRun_outputs_closed (dl : ℕ) (hd : 1 ≤ dl) :
    ∀ (xs buf : List ℚ), buf.length = dl →
      (delayRun dl buf (xs.map fun x => [x])).1
        = (List.range xs.length).map fun t => [(buf ++ xs).getD t 0] := by
  intro xs
  induction xs with
  | nil => intro buf _; simp [delayRun]
  | cons x xs ih =>
      intro buf h
      obtain ⟨b, bs, rfl⟩ : ∃ b bs, buf = b :: bs := by
        cases buf with
        | nil => simp at h; omega
        | cons b bs => exact ⟨b, bs, rfl⟩
      have hbs : bs.length = dl - 1 := by
        simp only [List.length_cons] at h; omega
      rw [List.map_cons, delayRun_cons, delay_step_eq dl hd b bs h x]
      simp only
      rw [ih (bs ++ [x]) (by simp [hbs]; omega)]
      rw [List.length_cons, List.range_succ_eq_map, List.map_cons,
        List.map_map]
      congr 1
      apply List.map_congr_left
      intro t _
      simp [Function.comp, List.getD_cons_succ]

/-- The delay buffer keeps exactly `dl` steps across any number of
streaming calls, whatever the chunk sizes. -/
lemma delayRun_state_length (dl : ℕ) (hd : 1 ≤ dl) :
    ∀ (chunks : List (List ℚ)) (buf : List ℚ), buf.length = dl →
      (delayRun dl buf chunks).2.length = dl := by
  intro chunks
  induction chunks with
  | nil => intro buf h; simpa [delayRun] using h
  | cons chunk rest ih =>
      intro buf h
      rw [delayRun_cons]
      apply ih
      simp only [delayStreamingInternal, pySliceLast]
      have hdl : ¬ dl = 0 := by omega
      simp only [hdl, if_false, List.length_drop, List.length_append]
      omega

/-- Temporal taps agree between the streaming window at step `t` (the last
`e` entries of `zero-buffer ++ inputs up to t`) and position `t` of the
causally padded full sequence, for a dilated kernel of effective size
`e = d * (k - 1) + 1`. -/
lemma conv_window_taps (k d e t : ℕ) (hk : 1 ≤ k) (_hd : 1 ≤ d)
    (hke : e = d * (k - 1) + 1) (xs : List ℚ) (_ht : t < xs.length) :
    convTaps k d (((List.replicate e (0 : ℚ) ++ xs).drop (t + 1)).take e) 0
      = convTaps k d (List.replicate (e - 1) (0 : ℚ) ++ xs) t := by
  unfold convTaps
  apply List.map_congr_left
  intro j hj
  rw [List.mem_range] at hj
  have hcomm : (k - 1) * d = d * (k - 1) := Nat.mul_comm _ _
  have hjd : j * d ≤ (k - 1) * d := Nat.mul_le_mul_right d (by omega)
  have hjd2 : j * d < e := by omega
  rw [Nat.zero_add, getD_take_of_lt _ _ _ hjd2, getD_drop_add,
    getD_zeros_append, getD_zeros_append]
  by_cases hcase : t + 1 + j * d < e
  · rw [if_pos hcase, if_pos (by omega)]
  · rw [if_neg hcase, if_neg (by omega)]
    congr 1
    omega

/-- Core equivalence: streaming a sequence one step at a time from a zero
buffer of size `e = d * (k - 1) + 1` through a stride-1 dilated
convolution cell reproduces, at step `t`, entry `t` of the causally
padded non-streaming convolution output. -/
lemma conv_streaming_equiv_core (k d e : ℕ) (hk : 1 ≤ k) (hd : 1 ≤ d)
    (hke : e = d * (k - 1) + 1) (g : List ℚ → ℚ) (xs : List ℚ)
    (t : ℕ) (ht : t < xs.length) :
    (streamRunInt e (conv2DValid k d 1 g) (List.replicate e 0) xs).1.getD t []
      = [(conv2DValid k d 1 g (List.replicate (e - 1) (0 : ℚ) ++ xs)).getD t 0] := by
  have he : 1 ≤ e := by omega
  rw [streamRunInt_outputs_closed e he (conv2DValid k d 1 g) xs
    (List.replicate e 0) (by simp)]
  rw [getD_map_range _ _ _ ht]
  have hlenW : (((List.replicate e (0 : ℚ) ++ xs).drop (t + 1)).take e).length
      = e := by
    rw [List.length_take, List.length_drop, List.length_append,
      List.length_replicate]
    exact inf_eq_left.mpr (by omega)
  have houtW : conv2DValid k d 1 g
        (((List.replicate e (0 : ℚ) ++ xs).drop (t + 1)).take e)
      = [g (convTaps k d
          (((List.replicate e (0 : ℚ) ++ xs).drop (t + 1)).take e) 0)] := by
    unfold conv2DValid
    rw [hlenW, ← hke]
    have h1 : convOutLen e e 1 = 1 := by
      unfold convOutLen
      rw [if_neg (lt_irrefl e)]
      simp
    rw [h1]
    simp [List.range_succ]
  have houtN : (conv2DValid k d 1 g
        (List.replicate (e - 1) (0 : ℚ) ++ xs)).getD t 0
      = g (convTaps k d (List.replicate (e - 1) (0 : ℚ) ++ xs) t) := by
    unfold conv2DValid
    rw [List.length_append, List.length_replicate, ← hke]
    have h1 : convOutLen (e - 1 + xs.length) e 1 = xs.length := by
      unfold convOutLen
      rw [if_neg (by omega), Nat.div_one]
      omega
    rw [h1, getD_map_range _ _ _ ht]
    simp
  rw [houtW, houtN, conv_window_taps k d e t hk hd hke xs ht]

/-- C1 (amended): for the two convolution cell kinds with temporal stride
1, any kernel size ≥ 1 and any dilation ≥ 1, feeding a sequence one step
at a time through the streaming wrapper (internal- or external-state,
zero-seeded buffer) produces at each step `t` exactly the causal-padded
non-streaming output at time index `t`.  (The original claim quantified
over every supported cell kind; the average-pooling kind refutes that
stronger statement.) -/
theorem conv_streaming_equiv (c : Cell) (hc : c.isConvKind = true)
    (k d : ℕ) (hk : 1 ≤ k) (hd : 1 ≤ d) (g : List ℚ → ℚ) (xs : List ℚ)
    (t : ℕ) (ht : t < xs.length) :
    (streamRunInt (d * (k - 1) + 1) (conv2DValid k d 1 g)
        (List.replicate (d * (k - 1) + 1) 0) xs).1.getD t []
      = [(nonStreaming c (d * (k - 1) + 1) (conv2DValid k d 1 g) true
            xs).getD t 0]
    ∧ (streamRunExt (d * (k - 1) + 1) (conv2DValid k d 1 g)
        (List.replicate (d * (k - 1) + 1) 0) xs).1.getD t []
      = [(nonStreaming c (d * (k - 1) + 1) (conv2DValid k d 1 g) true
            xs).getD t 0] := by
  have hns : nonStreaming c (d * (k - 1) + 1) (conv2DValid k d 1 g) true xs
      = conv2DValid k d 1 g
          (List.replicate (d * (k - 1) + 1 - 1) (0 : ℚ) ++ xs) := by
    simp [nonStreaming, hc]
  have hcore := conv_streaming_equiv_core k d (d * (k - 1) + 1) hk hd rfl
    g xs t ht
  refine ⟨?_, ?_⟩
  · rw [hns]
    exact hcore
  · rw [streamRunExt_eq_int, hns]
    exact hcore

/-- Witness for `conv_streaming_equiv`: kernel size 2, dilation 1, the
window-sum kernel, input `[1, 2, 3]`, step `t = 1`. -/
theorem conv_streaming_equiv_witness :
    (streamRunInt (1 * (2 - 1) + 1) (conv2DValid 2 1 1 List.sum)
        (List.replicate (1 * (2 - 1) + 1) 0) [1, 2, 3]).1.getD 1 []
      = [(nonStreaming (.conv2D 2 1 1) (1 * (2 - 1) + 1)
            (conv2DValid 2 1 1 List.sum) true [1, 2, 3]).getD 1 0] :=
  (conv_streaming_equiv (.conv2D 2 1 1) rfl 2 1 (by decide) (by decide)
    List.sum [1, 2, 3] 1 (by decide)).1

/-- C1 counterexample: the average-pooling cell kind is supported in
streaming mode when its stride equals its pool size, yet its streaming
output at step 1 (the average of input steps 0 and 1) differs from its
non-streaming output at time index 1 (the average of input steps 2
and 3): the wrapper never causally pads a pooling cell and valid pooling
subsamples the time axis. -/
theorem pooling_streaming_mismatch :
    streamInit (.averagePooling2D 2 2) .STREAM_EXTERNAL_STATE_INFERENCE none
        = .ok (some 2)
    ∧ ¬ ((streamRunExt 2 (avgPool2DValid 2 2) (List.replicate 2 0)
            [1, 2, 3, 4]).1.getD 1 []
          = [(nonStreaming (.averagePooling2D 2 2) 2 (avgPool2DValid 2 2)
                true [1, 2, 3, 4]).getD 1 0]) := by
  refine ⟨rfl, ?_⟩
  have h1 : (streamRunExt 2 (avgPool2DValid 2 2) (List.replicate 2 0)
      [1, 2, 3, 4]).1.getD 1 [] = [3/2] := by
    norm_num [streamRunExt, streamingExternalState, avgPool2DValid,
      convOutLen, List.range_succ]
  have h2 : (nonStreaming (Cell.averagePooling2D 2 2) 2 (avgPool2DValid 2 2)
      true [1, 2, 3, 4]).getD 1 0 = 7/2 := by
    norm_num [nonStreaming, Cell.isConvKind, avgPool2DValid, convOutLen,
      List.range_succ]
  rw [h1, h2]
  norm_num

/-- C2: `Stream._non_streaming` applies no padding to a supported
non-convolution cell kind even with padding requested — the call with an
average-pooling cell and the padding flag set returns the unpadded
pooling output `[3/2, 7/2]`, while the left-padding by
`window_length - 1` zeros demanded by the claim would give `[1/2, 5/2]`;
the conversion kinds are the only ones padded, and only causally. -/
theorem nonStreaming_pooling_unpadded :
    nonStreaming (.averagePooling2D 2 2) 2 (avgPool2DValid 2 2) true
        [1, 2, 3, 4] = [3/2, 7/2]
    ∧ avgPool2DValid 2 2 (List.replicate (2 - 1) (0 : ℚ) ++ [1, 2, 3, 4])
        = [1/2, 5/2]
    ∧ ∀ (c : Cell) (e : ℕ) (xs : List ℚ),
        nonStreaming c e (avgPool2DValid 2 2) false xs
          = avgPool2DValid 2 2 xs := by
  refine ⟨?_, ?_, ?_⟩
  · norm_num [nonStreaming, Cell.isConvKind, avgPool2DValid, convOutLen,
      List.range_succ]
  · norm_num [avgPool2DValid, convOutLen, List.range_succ]
  · intro c e xs
    simp [nonStreaming]

/-- C3: `Stream.__init__` raises the cell-not-supported error for every
cell outside the four recognized kinds, regardless of the mode and of an
explicitly supplied `state_shape` — in particular an identity/pass-through
cell with an explicit buffer shape is rejected, contradicting the claim
(and the repository's own `stream_test.py`, which wraps `tf.identity`
with an explicit ring-buffer length). -/
theorem unsupported_cell_always_rejected :
    streamInit (.other "tf.identity") .TRAINING (some [1, 2, 3])
        = .error "Cell is not supported"
    ∧ ∀ (descr : String) (mode : Modes) (stateShape : Option (List ℕ)),
        streamInit (.other descr) mode stateShape
          = .error "Cell is not supported" :=
  ⟨rfl, fun _ _ _ => rfl⟩

/-- C4: `Delay.build` in external-state streaming mode with `delay > 0`
reads the never-assigned `state_shape` attribute and raises, while the
internal-state branch allocates a `[batch, delay, ...features]` zero
buffer as the claim describes for both branches. -/
theorem delayBuild_external_raises :
    delayBuild .STREAM_EXTERNAL_STATE_INFERENCE 2 1 [1, 1, 4]
        = .error "AttributeError: Delay object has no attribute state_shape"
    ∧ delayBuild .STREAM_INTERNAL_STATE_INFERENCE 2 1 [1, 1, 4]
        = .ok { stateShape := some [1, 2, 4],
                statesAllocated := some [1, 2, 4],
                inputStateShape := none } :=
  ⟨rfl, rfl⟩

/-- C5: a convolution cell declaring temporal stride greater than 1 makes
`Stream.__init__` raise in either streaming mode — the error happens at
construction, so no call ever takes place — while the same configuration
is accepted (with the usual effective kernel size) in TRAINING and
NON_STREAM_INFERENCE modes. -/
theorem conv_stride_streaming_rejected (k d s : ℕ) (mode : Modes)
    (stateShape : Option (List ℕ)) (hs : 1 < s) :
    ((mode = .STREAM_INTERNAL_STATE_INFERENCE
        ∨ mode = .STREAM_EXTERNAL_STATE_INFERENCE) →
      streamInit (.conv2D k d s) mode stateShape
          = .error "Stride in time dim greater than 1 in streaming mode not supported"
      ∧ streamInit (.depthwiseConv2D k d s) mode stateShape
          = .error "Stride in time dim greater than 1 in streaming mode not supported")
    ∧ ((mode = .TRAINING ∨ mode = .NON_STREAM_INFERENCE) →
      streamInit (.conv2D k d s) mode stateShape = .ok (some (d * (k - 1) + 1))
      ∧ streamInit (.depthwiseConv2D k d s) mode stateShape
          = .ok (some (d * (k - 1) + 1))) := by
  constructor
  · rintro (rfl | rfl) <;>
      exact ⟨by simp [streamInit, hs], by simp [streamInit, hs]⟩
  · rintro (rfl | rfl) <;>
      exact ⟨by simp [streamInit], by simp [streamInit]⟩

/-- Witness for `conv_stride_streaming_rejected`: kernel 3, dilation 1,
stride 2. -/
theorem conv_stride_streaming_rejected_witness :
    streamInit (.conv2D 3 1 2) .STREAM_INTERNAL_STATE_INFERENCE none
        = .error "Stride in time dim greater than 1 in streaming mode not supported"
    ∧ streamInit (.conv2D 3 1 2) .TRAINING none = .ok (some 3) :=
  ⟨((conv_stride_streaming_rejected 3 1 2 .STREAM_INTERNAL_STATE_INFERENCE
      none (by decide)).1 (Or.inl rfl)).1,
   ((conv_stride_streaming_rejected 3 1 2 .TRAINING none (by decide)).2
      (Or.inl rfl)).1⟩

/-- C6: in both streaming modes, a call whose input does not have exactly
one time-step raises, and a one-step call drops the oldest buffered step,
appends the new step, invokes the cell on the resulting window, and
returns the cell's output (with the window persisted resp. returned as
the new state). -/
theorem streaming_one_step_contract {γ : Type} (e : ℕ)
    (cellFn : List ℚ → γ) (states inputs : List ℚ)
    (hlen : states.length = e) :
    (inputs.length ≠ 1 →
      streamingInternalState e cellFn states inputs
          = .error "inputs.shape 1 must be 1"
      ∧ streamingExternalState e cellFn inputs states
          = .error "inputs.shape 1 must be 1")
    ∧ ∀ x : ℚ,
        streamingInternalState e cellFn states [x]
            = .ok (states.drop 1 ++ [x], cellFn (states.drop 1 ++ [x]))
        ∧ streamingExternalState e cellFn [x] states
            = .ok (cellFn (states.drop 1 ++ [x]), states.drop 1 ++ [x]) := by
  have htake : states.take e = states := List.take_of_length_le (le_of_eq hlen)
  constructor
  · intro hne
    exact ⟨by simp [streamingInternalState, hne],
           by simp [streamingExternalState, hne]⟩
  · intro x
    exact ⟨by simp [streamingInternalState, htake],
           by simp [streamingExternalState, htake]⟩

/-- Witness for `streaming_one_step_contract`: buffer `[0, 0, 0]` of size
3, a two-step input (rejected) and a one-step input (accepted). -/
theorem streaming_one_step_contract_witness :
    streamingInternalState 3 (fun l => l) [(0 : ℚ), 0, 0] [1, 2]
        = .error "inputs.shape 1 must be 1"
    ∧ streamingInternalState 3 (fun l => l) [(0 : ℚ), 0, 0] [5]
        = .ok ([0, 0, 5], [0, 0, 5]) := by
  have h := streaming_one_step_contract 3 (fun l => l) [(0 : ℚ), 0, 0]
    [1, 2] (by decide)
  refine ⟨(h.1 (by decide)).1, ?_⟩
  have h2 := (h.2 5).1
  simpa using h2

/-- C7: starting from a buffer of exactly `window_length` (respectively
`delay`) steps, the buffer persisted by internal-state streaming, the
buffer returned by external-state streaming, and the delay buffer all
still have exactly that many steps after any number of streaming calls. -/
theorem buffer_size_invariant {γ : Type} (e dl : ℕ)
    (cellFn : List ℚ → γ) (buf dbuf xs : List ℚ)
    (chunks : List (List ℚ)) (he : 1 ≤ e) (hbuf : buf.length = e)
    (hdl : 1 ≤ dl) (hdbuf : dbuf.length = dl) :
    (streamRunInt e cellFn buf xs).2.length = e
    ∧ (streamRunExt e cellFn buf xs).2.length = e
    ∧ (delayRun dl dbuf chunks).2.length = dl := by
  refine ⟨streamRunInt_state_length e he cellFn xs buf hbuf, ?_,
    delayRun_state_length dl hdl chunks dbuf hdbuf⟩
  rw [streamRunExt_eq_int]
  exact streamRunInt_state_length e he cellFn xs buf hbuf

/-- Witness for `buffer_size_invariant`: window 2, delay 2, three one-step
stream calls and two delay calls of mixed chunk sizes. -/
theorem buffer_size_invariant_witness :
    (streamRunInt 2 (fun l => l) [(0 : ℚ), 0] [1, 2, 3]).2.length = 2
    ∧ (streamRunExt 2 (fun l => l) [(0 : ℚ), 0] [1, 2, 3]).2.length = 2
    ∧ (delayRun 2 [(0 : ℚ), 0] [[1], [2, 3]]).2.length = 2 :=
  buffer_size_invariant 2 2 (fun l => l) [0, 0] [0, 0] [1, 2, 3]
    [[1], [2, 3]] (by decide) (by decide) (by decide) (by decide)

/-- C8: a streaming delay of 2 fed `A, B, C, D` one step at a time from a
zero buffer outputs `0, 0, A, B`; in general, for any `delay ≥ 1`, output
step `t` is input step `t - delay` (or zero for the first `delay`
steps). -/
theorem delay_shift_register (a b c d : ℚ) (dl : ℕ) (xs : List ℚ)
    (t : ℕ) (hdl : 1 ≤ dl) (ht : t < xs.length) :
    (delayRun 2 (List.replicate 2 0) [[a], [b], [c], [d]]).1
        = [[0], [0], [a], [b]]
    ∧ (delayRun dl (List.replicate dl 0) (xs.map fun x => [x])).1.getD t []
        = [if t < dl then 0 else xs.getD (t - dl) 0] := by
  refine ⟨rfl, ?_⟩
  rw [delayRun_outputs_closed dl hdl xs (List.replicate dl 0) (by simp)]
  rw [getD_map_range _ _ _ ht, getD_zeros_append]

/-- Witness for `delay_shift_register`: inputs `1, 2, 3, 4` and, for the
general part, delay 2 on `[5, 6, 7]` at step 2. -/
theorem delay_shift_register_witness :
    (delayRun 2 (List.replicate 2 0) [[(1 : ℚ)], [2], [3], [4]]).1
        = [[0], [0], [1], [2]]
    ∧ (delayRun 2 (List.replicate 2 0)
          ([(5 : ℚ), 6, 7].map fun x => [x])).1.getD 2 []
        = [if 2 < 2 then 0 else [(5 : ℚ), 6, 7].getD (2 - 2) 0] :=
  delay_shift_register 1 2 3 4 2 [5, 6, 7] 2 (by decide) (by decide)

/-- C9: a `Delay` with `delay = 0` returns its input unchanged in every
mode (the identity short-circuit precedes the mode dispatch), and its
build allocates no state buffer and no placeholder in any mode. -/
theorem delay_zero_identity (mode : Modes) (states inputs : List ℚ)
    (batch : ℕ) (inputShape : List ℕ) :
    delayCall mode 0 states inputs = (inputs, states)
    ∧ delayBuild mode 0 batch inputShape
        = .ok { stateShape := none, statesAllocated := none,
                inputStateShape := none } := by
  exact ⟨by simp [delayCall], by simp [delayBuild]⟩

/-- C10: after building a `Stream` wrapper in external-state mode,
`get_output_state` returns the null state (`None`) without raising, and
the first successful one-step streaming call stores a non-null state (the
updated window). -/
theorem output_state_none_before_first_call {γ : Type} (cell : Cell)
    (effKsize : Option ℕ) (batch : ℕ) (stateShape0 : Option (List ℕ))
    (inputShape : List ℕ) (e : ℕ) (cellFn : List ℚ → γ)
    (inputState : List ℚ) (x : ℚ) :
    streamGetOutputState .STREAM_EXTERNAL_STATE_INFERENCE
        (streamBuild cell .STREAM_EXTERNAL_STATE_INFERENCE effKsize batch
          stateShape0 inputShape).outputState = .ok none
    ∧ streamCallExternalMode e cellFn [x] inputState
        = .ok (cellFn ((inputState.take e).drop 1 ++ [x]),
               some ((inputState.take e).drop 1 ++ [x])) :=
  ⟨rfl, rfl⟩

end KwsStreaming
